import Mathlib

/-!
# Verification of the JSMusicVis rendering core

Shallow embedding of the WebGPU renderer (`src/webgpu-renderer.js`) and the
frame loop / color driver (`src/unnamed/part_000`) of the JSMusicVis
repository, with theorems settling the specification's claims.

Modelling conventions:
* WGSL `f32` shader arithmetic is idealised as exact rational arithmetic (`ℚ`).
* A texture is a total function `ℤ → ℤ → Color`.  WGSL leaves the result of an
  out-of-bounds `textureLoad` indeterminate; in this model such a read simply
  returns the surface function's value at the out-of-range coordinate, so
  hypotheses that constrain the whole function (e.g. uniformity) also fix the
  out-of-bounds reads.
* `sqrt` in the waveform vertex shader is a parameter of the embedding,
  constrained by hypotheses exactly where its value matters; `Rat.sqrt`
  instantiates it on perfect squares.
* Machine `u32` indices are `ℕ`; always-true source guards such as `x >= 0`
  on an unsigned value are kept literally.
-/

namespace JSMusicVis

/-- An rgba color as stored in an `rgba8unorm` surface, each channel a
rational in `[0,1]`. -/
structure Color where
  r : ℚ
  g : ℚ
  b : ℚ
  a : ℚ
deriving DecidableEq, Repr

/-- A 2D color surface, total on `ℤ × ℤ`; texels live at
`[0,width) × [0,height)`, values elsewhere stand for the indeterminate
out-of-bounds reads. -/
def Surface : Type := ℤ → ℤ → Color

/-! ## Decay/blur compute kernel (src/webgpu-renderer.js, blurShader) -/

/-- `curColorMix` from the blur shader (line 187). -/
def curColorMix : ℚ := 1/2

/-- `tmpColorMix` from the blur shader (line 188). -/
def tmpColorMix : ℚ := 1/2

/-- `falloff` from the blur shader (line 189): the constant 0.005. -/
def falloff : ℚ := 5/1000

/-- One neighbor blend step of the blur shader: `new = new * curColorMix +
tmp * tmpColorMix` applied to the three color channels. -/
def blendNeighbor (c : ℚ × ℚ × ℚ) (t : Color) : ℚ × ℚ × ℚ :=
  (c.1 * curColorMix + t.r * tmpColorMix,
   c.2.1 * curColorMix + t.g * tmpColorMix,
   c.2.2 * curColorMix + t.b * tmpColorMix)

/-- The blur shader's `main` (lines 168–272), giving the value written to
`outputTex` at texel `(x, y)` (`x y : ℕ`, mirroring the `u32` invocation id;
the dispatch guard `x >= width || y >= height` is handled in `blurPass`).
The source's branch conditions are kept verbatim, including the always-true
`x >= 0` on an unsigned coordinate and the disabled `&& false` right-neighbor
branches. -/
def blurKernel (tex : Surface) (w h : ℕ) (clearFrame : Bool) (x y : ℕ) : Color :=
  let currentColor := tex x y
  let c0 : ℚ × ℚ × ℚ := (currentColor.r, currentColor.g, currentColor.b)
  let c1 := if x ≥ 0 then blendNeighbor c0 (tex ((x : ℤ) - 1) y) else c0
  let c2 := if x < w ∧ False then blendNeighbor c1 (tex ((x : ℤ) + 1) y) else c1
  let c3 :=
    if y > 0 then
      let d1 := blendNeighbor c2 (tex x ((y : ℤ) - 1))
      let d2 := if x > 0 then blendNeighbor d1 (tex ((x : ℤ) - 1) ((y : ℤ) - 1)) else d1
      if x < w ∧ False then blendNeighbor d2 (tex ((x : ℤ) + 1) ((y : ℤ) - 1)) else d2
    else c2
  let c4 :=
    if y < h then
      let d1 := blendNeighbor c3 (tex x ((y : ℤ) + 1))
      let d2 := if x > 0 then blendNeighbor d1 (tex ((x : ℤ) - 1) ((y : ℤ) + 1)) else d1
      if x < w ∧ False then blendNeighbor d2 (tex ((x : ℤ) + 1) ((y : ℤ) + 1)) else d2
    else c3
  if clearFrame then
    ⟨max (c4.1 - falloff) 0, max (c4.2.1 - falloff) 0, max (c4.2.2 - falloff) 0, 1⟩
  else
    ⟨max c4.1 0, max c4.2.1 0, max c4.2.2 0, 1⟩

/-- The list of texel coordinates the blur kernel passes to `textureLoad`
for invocation `(x, y)`, one entry per `textureLoad` in source order
(lines 178–253), reproducing the branch conditions verbatim. -/
def blurLoadedCoords (w h x y : ℕ) : List (ℤ × ℤ) :=
  if x ≥ w ∨ y ≥ h then [] else
    [((x : ℤ), (y : ℤ))]
    ++ (if x ≥ 0 then [((x : ℤ) - 1, (y : ℤ))] else [])
    ++ (if x < w ∧ False then [((x : ℤ) + 1, (y : ℤ))] else [])
    ++ (if y > 0 then
          [((x : ℤ), (y : ℤ) - 1)]
          ++ (if x > 0 then [((x : ℤ) - 1, (y : ℤ) - 1)] else [])
          ++ (if x < w ∧ False then [((x : ℤ) + 1, (y : ℤ) - 1)] else [])
        else [])
    ++ (if y < h then
          [((x : ℤ), (y : ℤ) + 1)]
          ++ (if x > 0 then [((x : ℤ) - 1, (y : ℤ) + 1)] else [])
          ++ (if x < w ∧ False then [((x : ℤ) + 1, (y : ℤ) + 1)] else [])
        else [])

/-- A coordinate is inside a `w × h` surface. -/
def inBoundsCoord (w h : ℕ) (c : ℤ × ℤ) : Prop :=
  0 ≤ c.1 ∧ c.1 < (w : ℤ) ∧ 0 ≤ c.2 ∧ c.2 < (h : ℤ)

instance (w h : ℕ) (c : ℤ × ℤ) : Decidable (inBoundsCoord w h c) := by
  unfold inBoundsCoord; infer_instance

/-- The blur compute pass at the pass level: in-bounds texels of the output
receive the kernel value, texels skipped by the dispatch guard keep the old
output contents. -/
def blurPass (input old : Surface) (w h : ℕ) (clearFrame : Bool) : Surface :=
  fun x y =>
    if 0 ≤ x ∧ x < (w : ℤ) ∧ 0 ≤ y ∧ y < (h : ℤ) then
      blurKernel input w h clearFrame x.toNat y.toNat
    else old x y

/-- One whole-surface application of the blur kernel, extending the kernel to
every coordinate of the surface function (at in-bounds coordinates this is
exactly the value the pass writes; elsewhere it extends the function in the
way a clamping out-of-bounds read would observe). -/
def blurStep (w h : ℕ) (clearFrame : Bool) (s : Surface) : Surface :=
  fun x y => blurKernel s w h clearFrame x.toNat y.toNat

/-! ## Waveform vertex shader (src/webgpu-renderer.js, waveformVertexShader) -/

/-- The `WaveUniforms` uniform block of the waveform vertex shader
(lines 284–292). -/
structure WaveUniforms where
  width : ℚ
  height : ℚ
  midY : ℚ
  heightChunks : ℚ
  bufferLength : ℕ
  sliceWidth : ℚ
  lineWidth : ℚ
deriving DecidableEq, Repr

/-- The perpendicular offset `(perpX, perpY)` the waveform vertex shader
computes for the segment of `audioIndex` (lines 307–325).  `sqrtFn` models
WGSL `sqrt`. -/
def waveformPerp (sqrtFn : ℚ → ℚ) (audioData : ℕ → ℚ) (u : WaveUniforms)
    (audioIndex : ℕ) : ℚ × ℚ :=
  let value1 := audioData audioIndex - 128
  let value2 := audioData (audioIndex + 1) - 128
  let x1 := (audioIndex : ℚ) * u.sliceWidth
  let y1 := u.midY + value1 * u.heightChunks
  let x2 := ((audioIndex : ℚ) + 1) * u.sliceWidth
  let y2 := u.midY + value2 * u.heightChunks
  let dx := x2 - x1
  let dy := y2 - y1
  let len := sqrtFn (dx * dx + dy * dy)
  if len > 0 then (-dy / len * u.lineWidth, dx / len * u.lineWidth)
  else (0, 0)

/-- The pre-NDC `(x, y)` position the waveform vertex shader assigns to
vertex `vertexInQuad` (0–5) of the quad for `audioIndex` (lines 327–349). -/
def waveformQuadVertexXY (sqrtFn : ℚ → ℚ) (audioData : ℕ → ℚ)
    (u : WaveUniforms) (audioIndex vertexInQuad : ℕ) : ℚ × ℚ :=
  let value1 := audioData audioIndex - 128
  let value2 := audioData (audioIndex + 1) - 128
  let x1 := (audioIndex : ℚ) * u.sliceWidth
  let y1 := u.midY + value1 * u.heightChunks
  let x2 := ((audioIndex : ℚ) + 1) * u.sliceWidth
  let y2 := u.midY + value2 * u.heightChunks
  let p := waveformPerp sqrtFn audioData u audioIndex
  if vertexInQuad = 0 then (x1 + p.1, y1 + p.2)
  else if vertexInQuad = 1 then (x1 - p.1, y1 - p.2)
  else if vertexInQuad = 2 then (x2 + p.1, y2 + p.2)
  else if vertexInQuad = 3 then (x2 + p.1, y2 + p.2)
  else if vertexInQuad = 4 then (x1 - p.1, y1 - p.2)
  else (x2 - p.1, y2 - p.2)

/-- The quad index `audioIndex = vertexIndex / 6u` of the waveform vertex
shader (line 299). -/
def quadIndex (vertexIndex : ℕ) : ℕ := vertexIndex / 6

/-- The degenerate-vertex guard of the waveform vertex shader (line 302):
vertices with `audioIndex >= bufferLength - 1` output the zero position. -/
def vertexIsDegenerate (bufferLength vertexIndex : ℕ) : Prop :=
  quadIndex vertexIndex ≥ bufferLength - 1

instance (bufferLength vertexIndex : ℕ) :
    Decidable (vertexIsDegenerate bufferLength vertexIndex) := by
  unfold vertexIsDegenerate; infer_instance

/-- The full vertex-shader output (NDC position, a `vec4`), lines 295–357. -/
def waveformVertexMain (sqrtFn : ℚ → ℚ) (audioData : ℕ → ℚ)
    (u : WaveUniforms) (vertexIndex : ℕ) : ℚ × ℚ × ℚ × ℚ :=
  let audioIndex := vertexIndex / 6
  let vertexInQuad := vertexIndex % 6
  if audioIndex ≥ u.bufferLength - 1 then (0, 0, 0, 0)
  else
    let xy := waveformQuadVertexXY sqrtFn audioData u audioIndex vertexInQuad
    ((xy.1 / u.width) * 2 - 1, 1 - (xy.2 / u.height) * 2, 0, 1)

/-- Vertex count of one waveform draw call:
`renderPass.draw((this.bufferLength - 1) * 6)` (lines 635 and 648). -/
def waveformDrawVertexCount (bufferLength : ℕ) : ℕ := (bufferLength - 1) * 6

/-- The two waveform draw calls recorded each updating frame, in source
order: the shadow stroke (line 635) then the main stroke (line 648), each
with its vertex count. -/
def renderFrameWaveformDraws (bufferLength : ℕ) : List ℕ :=
  [waveformDrawVertexCount bufferLength, waveformDrawVertexCount bufferLength]

/-! ## Frame scheduler (src/unnamed/part_000, frameLooper lines 100–112) -/

/-- `targetFrameTime = 1000 / 80` (line 70): 12.5 ms. -/
def targetFrameTime : ℚ := 1000 / 80

/-- The frame-rate-cap decision of `frameLooper` (lines 108–112): returns
`(render?, new lastFrameTime)`.  If `deltaTime = currentTime - lastFrameTime`
is below `targetFrameTime` the invocation reschedules without rendering and
leaves `lastFrameTime` unchanged; otherwise it renders and records
`currentTime`. -/
def frameSchedDecision (lastFrameTime currentTime : ℚ) : Bool × ℚ :=
  if currentTime - lastFrameTime < targetFrameTime then (false, lastFrameTime)
  else (true, currentTime)

/-- `frameLooper`'s entry including the pause short-circuit (lines 103–105):
`none` when paused (loop stops), otherwise the scheduling decision. -/
def frameLooperSchedule (paused : Bool) (lastFrameTime currentTime : ℚ) :
    Option (Bool × ℚ) :=
  if paused then none else some (frameSchedDecision lastFrameTime currentTime)

/-! ## Color driver (src/unnamed/part_000, frameLooper lines 123–141) -/

/-- The rejection test of the color driver (lines 123–126): the triple is
too similar (bland) or too dim.  The `isNaN` clauses cannot fire in this
integer model (the averages are initialised to 0 and remain integers). -/
def colorRejectTest (c : ℤ × ℤ × ℤ) : Bool :=
  (decide (c.1 - c.2.1 < 50) && decide (c.2.1 - c.2.2 < 50)
      && decide (c.2.2 - c.2.1 < 50))
    || (decide (c.1 < 128) && decide (c.2.1 < 128) && decide (c.2.2 < 128))

/-- The `while` condition of the re-roll loop (line 127): all three channels
below 200. -/
def needsReroll (c : ℤ × ℤ × ℤ) : Bool :=
  decide (c.1 < 200) && decide (c.2.1 < 200) && decide (c.2.2 < 200)

/-- The re-roll loop (lines 127–131) with explicit fuel: while the current
triple has every channel below 200, replace it by the next triple of random
draws (`seq k` is the triple drawn on iteration `k`).  `none` means the fuel
ran out with the loop still spinning. -/
def rerollLoop (seq : ℕ → ℤ × ℤ × ℤ) (k : ℕ) (c : ℤ × ℤ × ℤ) :
    ℕ → Option (ℤ × ℤ × ℤ)
  | 0 => if needsReroll c then none else some c
  | n + 1 => if needsReroll c then rerollLoop seq (k + 1) (seq k) n else some c

/-! ## Resize (src/webgpu-renderer.js, resizeCanvas lines 418–508) -/

/-- `scaleFactor = 1.3` (line 31), as the rational 13/10. -/
def scaleFactor : ℚ := 13/10

/-- Assignment to the `canvas.width` / `canvas.height` IDL attribute
(`unsigned long`): the value is truncated toward zero. -/
def canvasAttrAssign (q : ℚ) : ℕ := (⌊q⌋).toNat

/-- The backing-store dimensions `resizeCanvas` computes (lines 420–421):
`clientWidth * scaleFactor` and `clientHeight * scaleFactor`, each truncated
by the canvas attribute assignment. -/
def resizeDims (clientWidth clientHeight : ℕ) : ℕ × ℕ :=
  (canvasAttrAssign ((clientWidth : ℚ) * scaleFactor),
   canvasAttrAssign ((clientHeight : ℚ) * scaleFactor))

/-- The `(width, height)` each surface of the Surface Set is created with by
`resizeCanvas`: every `createTexture` call passes
`[this.canvas.width, this.canvas.height]` (lines 433–467). -/
structure SurfaceSetDims where
  renderTexture : ℕ × ℕ
  tempTexture : ℕ × ℕ
  waveformTexture : ℕ × ℕ
  msaaTexture : ℕ × ℕ
deriving DecidableEq, Repr

/-- The dimensions `resizeCanvas` allocates: all four textures are created
at `[this.canvas.width, this.canvas.height]` after the attribute
assignments of lines 420–421. -/
def resizeCanvasDims (clientWidth clientHeight : ℕ) : SurfaceSetDims :=
  let d := resizeDims clientWidth clientHeight
  { renderTexture := d, tempTexture := d, waveformTexture := d, msaaTexture := d }

/-! ## Per-frame orchestration (src/webgpu-renderer.js, renderFrame 510–710)

The blur compute pass is embedded exactly (`blurPass`); the rasterising
passes (waveform draw with MSAA resolve, composite blend, copy-to-canvas)
are parameters of the model: the orchestration theorems hold for every
behaviour of those passes, while the data flow between surfaces — which
pass reads which texture and writes which texture, in which order — is
taken from the source. -/

/-- The parameter object of `renderFrame` (lines 511–519).  `audioData` is
`none` for JS `null`; `updateWaveform` is the truthiness of the flag. -/
structure FrameParams where
  clearFrame : Bool
  updateWaveform : Bool
  audioData : Option (ℕ → ℚ)
  colorRGB : ℚ × ℚ × ℚ
  mid_y : ℚ
  heightChunks : ℚ
  sliceWidth : ℚ

/-- The renderer's per-frame mutable GPU state: the four surfaces, the
canvas, and the audio-sample storage buffer. -/
structure RendererState where
  width : ℕ
  height : ℕ
  bufferLength : ℕ
  renderTexture : Surface
  tempTexture : Surface
  waveformTexture : Surface
  canvasTexture : Surface
  audioDataBuffer : ℕ → ℚ

/-- The upload of `audioData` into the GPU audio buffer (lines 555–559):
the first `bufferLength` entries are overwritten. -/
def writeAudioBuffer (bufferLength : ℕ) (audioData old : ℕ → ℚ) : ℕ → ℚ :=
  fun i => if i < bufferLength then audioData i else old i

/-- The texture the blur pass binds as `inputTex` (line 536):
`this.renderTexture`. -/
def blurPassInput (s : RendererState) : Surface := s.renderTexture

/-- `renderFrame` (lines 510–710) as a state transformer.  `wavePass` stands
for the shadow+main waveform draws into the cleared MSAA target resolved to
the waveform texture (lines 610–651); `compositePass src dst` for the
alpha-blended composite of `src` over `dst` (lines 653–675); `copyPass src
dst` for the textured-quad copy of `src` onto `dst` (lines 678–700).  Steps,
in source order: blur (render → temp); if `updateWaveform && audioData`,
audio upload, waveform draw, composite into temp; copy temp to canvas;
copy temp back to render (lines 702–707). -/
def renderFrame
    (wavePass : (ℕ → ℚ) → FrameParams → ℕ → ℕ → Surface)
    (compositePass : Surface → Surface → Surface)
    (copyPass : Surface → Surface → Surface)
    (p : FrameParams) (s : RendererState) : RendererState :=
  let temp1 := blurPass (blurPassInput s) s.tempTexture s.width s.height p.clearFrame
  let stage2 :=
    match p.updateWaveform, p.audioData with
    | true, some a =>
        let buf := writeAudioBuffer s.bufferLength a s.audioDataBuffer
        let wf := wavePass buf p s.width s.height
        (buf, wf, compositePass wf temp1)
    | true, none => (s.audioDataBuffer, s.waveformTexture, temp1)
    | false, _ => (s.audioDataBuffer, s.waveformTexture, temp1)
  let canvas3 := copyPass stage2.2.2 s.canvasTexture
  { s with
    renderTexture := stage2.2.2
    tempTexture := stage2.2.2
    waveformTexture := stage2.2.1
    canvasTexture := canvas3
    audioDataBuffer := stage2.1 }

/-! ## Concrete inputs used by counterexamples and witnesses -/

/-- A 2×2 surface with a single bright texel at `(0,0)` and black elsewhere
(alpha 1 everywhere). -/
def brightCornerSurface : Surface :=
  fun x y => if x = 0 ∧ y = 0 then ⟨1, 1, 1, 1⟩ else ⟨0, 0, 0, 1⟩

/-- A uniform surface of value 1/100 on every channel, alpha 1. -/
def uniFadeSurface : Surface := fun _ _ => ⟨1/100, 1/100, 1/100, 1⟩

/-- A uniform mid-gray surface, alpha 1. -/
def uniGraySurface : Surface := fun _ _ => ⟨1/2, 1/4, 3/4, 1⟩

/-- A 2×2 surface whose four in-bounds texels all hold the same mid-gray
color (alpha 1), while the surface function is opaque black outside
`[0,2) × [0,2)` — one conformant realisation of WGSL's indeterminate
out-of-bounds `textureLoad` results. -/
def uniformInteriorSurface : Surface :=
  fun x y =>
    if 0 ≤ x ∧ x < 2 ∧ 0 ≤ y ∧ y < 2 then ⟨1/2, 1/4, 3/4, 1⟩
    else ⟨0, 0, 0, 1⟩

/-- A flat sample buffer: every byte sample is 128 (the center value). -/
def flatAudio : ℕ → ℚ := fun _ => 128

/-- Concrete waveform uniforms: 100×100 surface, `midY = 50`,
`heightChunks = 1`, buffer length 4, `sliceWidth = 2`, `lineWidth = 1`. -/
def flatWaveUniforms : WaveUniforms :=
  { width := 100, height := 100, midY := 50, heightChunks := 1
    bufferLength := 4, sliceWidth := 2, lineWidth := 1 }

/-- A draw sequence whose every triple is `(210, 210, 210)`: bright enough
to stop the re-roll loop, but mutually equal. -/
def blandBrightSeq : ℕ → ℤ × ℤ × ℤ := fun _ => (210, 210, 210)

/-- A draw sequence whose every triple is `(0, 0, 210)`. -/
def blueBrightSeq : ℕ → ℤ × ℤ × ℤ := fun _ => (0, 0, 210)

/-- A trivial waveform pass used to instantiate the orchestration model. -/
def trivWavePass : (ℕ → ℚ) → FrameParams → ℕ → ℕ → Surface :=
  fun _ _ _ _ => fun _ _ => ⟨0, 0, 0, 0⟩

/-- A trivial binary pass (composite/copy placeholder) returning its first
argument. -/
def trivBinPass : Surface → Surface → Surface := fun s _ => s

/-- Frame parameters with the waveform update disabled. -/
def trivParams : FrameParams :=
  { clearFrame := true, updateWaveform := false, audioData := none
    colorRGB := (0, 0, 0), mid_y := 0, heightChunks := 0, sliceWidth := 0 }

/-- A concrete 2×2 renderer state. -/
def trivState : RendererState :=
  { width := 2, height := 2, bufferLength := 4
    renderTexture := uniGraySurface, tempTexture := fun _ _ => ⟨0, 0, 0, 1⟩
    waveformTexture := fun _ _ => ⟨0, 0, 0, 0⟩
    canvasTexture := fun _ _ => ⟨0, 0, 0, 1⟩
    audioDataBuffer := fun _ => 0 }

/-! ## Helper lemmas -/

/-- Blending an accumulator that already equals a color's channels with that
same color leaves the accumulator unchanged (50/50 mix of equals). -/
theorem blendNeighbor_self (c : Color) :
    blendNeighbor (c.r, c.g, c.b) c = (c.r, c.g, c.b) := by
  unfold blendNeighbor curColorMix tmpColorMix
  refine Prod.ext ?_ (Prod.ext ?_ ?_) <;> dsimp <;> ring

/-- On a surface that is uniformly `c`, the blur kernel outputs the decayed
(or undecayed) value of `c` regardless of the pixel's position: every branch
blends `c` with itself. -/
theorem blurKernel_uniform (tex : Surface) (w h : ℕ) (cf : Bool) (x y : ℕ)
    (c : Color) (hs : ∀ i j, tex i j = c) :
    blurKernel tex w h cf x y =
      if cf then
        ⟨max (c.r - falloff) 0, max (c.g - falloff) 0, max (c.b - falloff) 0, 1⟩
      else ⟨max c.r 0, max c.g 0, max c.b 0, 1⟩ := by
  unfold blurKernel
  simp only [hs, blendNeighbor_self, ite_self]

/-! ## C1 -/

/-- C1: refuted on the code (code bug).  On a 2×2 surface the blur kernel's
always-true guards make edge invocations load out-of-range texels: the
invocation at `(0,0)` loads texel `(-1,0)` (left-neighbor branch, guard
`x >= 0` on an unsigned coordinate), and the invocation at `(0,1)` — bottom
row, `y = height-1` — loads texel `(0,2)` (down-neighbor branch, guard
`y < height`, vacuous after the early return).  Both coordinates are outside
`[0,2) × [0,2)`, contradicting the claim that no branch reads outside
surface bounds. -/
theorem blur_edge_pixels_load_out_of_range :
    (((-1 : ℤ), (0 : ℤ)) ∈ blurLoadedCoords 2 2 0 0 ∧
        ¬ inBoundsCoord 2 2 ((-1 : ℤ), (0 : ℤ))) ∧
    (((0 : ℤ), (2 : ℤ)) ∈ blurLoadedCoords 2 2 0 1 ∧
        ¬ inBoundsCoord 2 2 ((0 : ℤ), (2 : ℤ))) := by
  decide

/-! ## C3 -/

/-- C3: confirmed.  At the end of every `renderFrame` call — for any
behaviour of the waveform, composite and copy passes, any parameters and
any starting state — the temp surface has been copied back into the render
surface: the texture the next call's blur pass binds as its input
(`blurPassInput`, i.e. the render texture) is exactly this call's final
composited temp surface, closing the feedback loop. -/
theorem renderFrame_feedback_loop
    (wavePass : (ℕ → ℚ) → FrameParams → ℕ → ℕ → Surface)
    (compositePass copyPass : Surface → Surface → Surface)
    (p : FrameParams) (s : RendererState) :
    blurPassInput (renderFrame wavePass compositePass copyPass p s) =
      (renderFrame wavePass compositePass copyPass p s).tempTexture := by
  rfl

/-! ## C8 -/

/-- C8: confirmed.  After `resizeCanvas`, the render, temp, multisample and
waveform textures are all created at identical dimensions, namely the
canvas element's client size multiplied by the supersampling factor 1.3 and
truncated consistently through the single `canvas.width`/`canvas.height`
attribute assignment. -/
theorem resizeCanvas_all_surfaces_same_dims (clientWidth clientHeight : ℕ) :
    (resizeCanvasDims clientWidth clientHeight).renderTexture =
        (resizeCanvasDims clientWidth clientHeight).tempTexture ∧
    (resizeCanvasDims clientWidth clientHeight).tempTexture =
        (resizeCanvasDims clientWidth clientHeight).msaaTexture ∧
    (resizeCanvasDims clientWidth clientHeight).msaaTexture =
        (resizeCanvasDims clientWidth clientHeight).waveformTexture ∧
    (resizeCanvasDims clientWidth clientHeight).renderTexture =
      (canvasAttrAssign ((clientWidth : ℚ) * scaleFactor),
       canvasAttrAssign ((clientHeight : ℚ) * scaleFactor)) := by
  exact ⟨rfl, rfl, rfl, rfl⟩

/-! ## C10 -/

/-- C10: confirmed.  When `updateWaveform` is false, or `audioData` is null,
`renderFrame` leaves the waveform surface and the GPU audio buffer
untouched, while the blur pass still writes the temp surface, the copy pass
still presents it to the canvas, and the temp surface is still copied back
into the render surface; the call is total (never fails). -/
theorem renderFrame_skips_waveform_passes
    (wavePass : (ℕ → ℚ) → FrameParams → ℕ → ℕ → Surface)
    (compositePass copyPass : Surface → Surface → Surface)
    (p : FrameParams) (s : RendererState)
    (h : p.updateWaveform = false ∨ p.audioData = none) :
    (renderFrame wavePass compositePass copyPass p s).waveformTexture =
        s.waveformTexture ∧
    (renderFrame wavePass compositePass copyPass p s).audioDataBuffer =
        s.audioDataBuffer ∧
    (renderFrame wavePass compositePass copyPass p s).tempTexture =
        blurPass s.renderTexture s.tempTexture s.width s.height p.clearFrame ∧
    (renderFrame wavePass compositePass copyPass p s).canvasTexture =
        copyPass (blurPass s.renderTexture s.tempTexture s.width s.height
          p.clearFrame) s.canvasTexture ∧
    (renderFrame wavePass compositePass copyPass p s).renderTexture =
        (renderFrame wavePass compositePass copyPass p s).tempTexture := by
  rcases h with h | h
  · simp [renderFrame, h, blurPassInput]
  · cases hw : p.updateWaveform <;> simp [renderFrame, h, hw, blurPassInput]

/-- Witness for C10 at a concrete skipped frame. -/
theorem renderFrame_skips_waveform_passes_witness :
    (trivParams.updateWaveform = false ∨ trivParams.audioData = none) ∧
    ((renderFrame trivWavePass trivBinPass trivBinPass trivParams
          trivState).waveformTexture = trivState.waveformTexture ∧
     (renderFrame trivWavePass trivBinPass trivBinPass trivParams
          trivState).audioDataBuffer = trivState.audioDataBuffer ∧
     (renderFrame trivWavePass trivBinPass trivBinPass trivParams
          trivState).tempTexture =
        blurPass trivState.renderTexture trivState.tempTexture trivState.width
          trivState.height trivParams.clearFrame ∧
     (renderFrame trivWavePass trivBinPass trivBinPass trivParams
          trivState).canvasTexture =
        trivBinPass (blurPass trivState.renderTexture trivState.tempTexture
          trivState.width trivState.height trivParams.clearFrame)
          trivState.canvasTexture ∧
     (renderFrame trivWavePass trivBinPass trivBinPass trivParams
          trivState).renderTexture =
        (renderFrame trivWavePass trivBinPass trivBinPass trivParams
          trivState).tempTexture) :=
  ⟨Or.inl rfl,
   renderFrame_skips_waveform_passes trivWavePass trivBinPass trivBinPass
     trivParams trivState (Or.inl rfl)⟩

/-! ## C6 -/

/-- C6: confirmed.  In the Running state (not paused), with the fixed
12.5 ms target interval, a callback invocation whose elapsed time since the
last accepted frame is below the interval reschedules without rendering and
leaves the last-accepted timestamp unchanged; an invocation at least 12.5 ms
after the last accepted frame renders and records its timestamp; and from an
accepted frame, two subsequent invocations 5 ms apart (at +5 ms and +10 ms)
both reschedule without rendering. -/
theorem frameLooper_frame_cap :
    (∀ last t : ℚ, t - last < targetFrameTime →
        frameLooperSchedule false last t = some (false, last)) ∧
    (∀ last t : ℚ, targetFrameTime ≤ t - last →
        frameLooperSchedule false last t = some (true, t)) ∧
    (∀ last : ℚ, frameLooperSchedule false last (last + 5) = some (false, last) ∧
        frameLooperSchedule false last (last + 5 + 5) = some (false, last)) := by
  refine ⟨?_, ?_, ?_⟩
  · intro last t h
    simp [frameLooperSchedule, frameSchedDecision, h]
  · intro last t h
    simp [frameLooperSchedule, frameSchedDecision, not_lt.2 h]
  · intro last
    have h5 : (5 : ℚ) < targetFrameTime := by
      unfold targetFrameTime; norm_num
    have h10 : (10 : ℚ) < targetFrameTime := by
      unfold targetFrameTime; norm_num
    constructor
    · show (if (false : Bool) then none else
          some (frameSchedDecision last (last + 5))) = some (false, last)
      simp only [Bool.false_eq_true, if_false, frameSchedDecision]
      rw [if_pos (by linarith : last + 5 - last < targetFrameTime)]
    · show (if (false : Bool) then none else
          some (frameSchedDecision last (last + 5 + 5))) = some (false, last)
      simp only [Bool.false_eq_true, if_false, frameSchedDecision]
      rw [if_pos (by linarith : last + 5 + 5 - last < targetFrameTime)]

/-- Witness for C6: invocations 5 ms and 10 ms after an accepted frame at
time 0 both skip; an invocation exactly 12.5 ms after renders. -/
theorem frameLooper_frame_cap_witness :
    frameLooperSchedule false 0 5 = some (false, 0) ∧
    frameLooperSchedule false 0 10 = some (false, 0) ∧
    frameLooperSchedule false 0 (25/2) = some (true, 25/2) :=
  ⟨frameLooper_frame_cap.1 0 5 (by norm_num [targetFrameTime]),
   frameLooper_frame_cap.1 0 10 (by norm_num [targetFrameTime]),
   frameLooper_frame_cap.2.1 0 (25/2) (by norm_num [targetFrameTime])⟩

/-! ## C5 -/

/-- C5: refuted as stated.  Starting from `(0,0,0)` (which is dim, so the
rejection test fires), a single re-roll drawing `(210,210,210)` exits the
loop — yet the resulting triple still satisfies the bland/dim rejection
test (all pairwise differences below 50), so on exit it does not fail the
test that triggered the re-roll. -/
theorem rerollLoop_counterexample :
    colorRejectTest (0, 0, 0) = true ∧
    rerollLoop blandBrightSeq 0 (0, 0, 0) 2 = some (210, 210, 210) ∧
    colorRejectTest (210, 210, 210) = true := by
  decide

/-- If some iteration's draw has a channel at or above 200, the re-roll loop
halts with enough fuel, and the triple it returns fails the `while`
condition. -/
theorem rerollLoop_halts (seq : ℕ → ℤ × ℤ × ℤ) :
    ∀ k j c, needsReroll (seq (j + k)) = false →
      ∃ r, rerollLoop seq j c (k + 1) = some r ∧ needsReroll r = false := by
  intro k
  induction k with
  | zero =>
      intro j c hk
      by_cases hc : needsReroll c
      · refine ⟨seq j, ?_, ?_⟩
        · simp only [rerollLoop, hc, if_true]
          simpa using hk
        · simpa using hk
      · exact ⟨c, by simp [rerollLoop, hc], by simpa using hc⟩
  | succ k ih =>
      intro j c hk
      by_cases hc : needsReroll c
      · have hk' : needsReroll (seq ((j + 1) + k)) = false := by
          have : (j + 1) + k = j + (k + 1) := by omega
          rw [this]; exact hk
        obtain ⟨r, hr, hr2⟩ := ih (j + 1) (seq j) hk'
        exact ⟨r, by simp only [rerollLoop, hc, if_true]; exact hr, hr2⟩
      · exact ⟨c, by simp [rerollLoop, hc], by simpa using hc⟩

/-- C5 amended: the re-roll loop terminates for every sequence of draws in
which some iteration draws a triple with a channel at or above 200 (not for
every sequence), and on exit at least one channel of the result is ≥ 200 —
hence the *dim* clause of the rejection test (all channels below 128) fails
— though the result may still satisfy the too-similar clause. -/
theorem rerollLoop_terminates_and_bright (seq : ℕ → ℤ × ℤ × ℤ)
    (c : ℤ × ℤ × ℤ) (k : ℕ) (hk : needsReroll (seq k) = false) :
    ∃ n r, rerollLoop seq 0 c n = some r ∧
      (200 ≤ r.1 ∨ 200 ≤ r.2.1 ∨ 200 ≤ r.2.2) ∧
      ¬ (r.1 < 128 ∧ r.2.1 < 128 ∧ r.2.2 < 128) := by
  have hk0 : needsReroll (seq (0 + k)) = false := by simpa using hk
  obtain ⟨r, hr, hr2⟩ := rerollLoop_halts seq k 0 c hk0
  refine ⟨k + 1, r, hr, ?_, ?_⟩
  · have := hr2
    simp only [needsReroll, Bool.and_eq_false_iff, decide_eq_false_iff_not,
      not_lt] at this
    omega
  · have := hr2
    simp only [needsReroll, Bool.and_eq_false_iff, decide_eq_false_iff_not,
      not_lt] at this
    omega

/-- Witness for C5 (amended): with the constant draw `(0,0,210)` the loop
exits and the result's blue channel is ≥ 200, so the dim clause fails. -/
theorem rerollLoop_terminates_and_bright_witness :
    needsReroll (blueBrightSeq 0) = false ∧
    ∃ n r, rerollLoop blueBrightSeq 0 (0, 0, 0) n = some r ∧
      (200 ≤ r.1 ∨ 200 ≤ r.2.1 ∨ 200 ≤ r.2.2) ∧
      ¬ (r.1 < 128 ∧ r.2.1 < 128 ∧ r.2.2 < 128) :=
  ⟨by decide,
   rerollLoop_terminates_and_bright blueBrightSeq (0, 0, 0) 0 (by decide)⟩

/-! ## C2 -/

/-- C2: refuted as stated.  On a 2×2 surface with a single bright texel at
`(0,0)`, one application of the decay pass with `clearFrame = true`
*increases* every color channel of the pixel at `(1,0)` (from 0 to 3/25):
the neighbor blend spreads brightness, so channels are not non-increasing
across passes for non-uniform surfaces.  All texels this pixel's kernel
invocation reads — `(0,0)`, `(1,1)`, `(0,1)` — are in bounds. -/
theorem blur_clear_not_monotone :
    (brightCornerSurface 1 0).r < (blurStep 2 2 true brightCornerSurface 1 0).r ∧
    (brightCornerSurface 1 0).g < (blurStep 2 2 true brightCornerSurface 1 0).g ∧
    (brightCornerSurface 1 0).b < (blurStep 2 2 true brightCornerSurface 1 0).b := by
  norm_num [blurStep, blurKernel, brightCornerSurface, blendNeighbor,
    curColorMix, tmpColorMix, falloff]

/-- Iterating the decay pass with `clearFrame = true` on a surface that is
uniformly `v` keeps the surface uniform and subtracts `falloff` per
application, floored at 0. -/
theorem blurStep_iterate_uniform (w h : ℕ) (v : ℚ) (hv : 0 ≤ v) (s : Surface)
    (hs : ∀ x y, s x y = ⟨v, v, v, 1⟩) (n : ℕ) (x y : ℤ) :
    ((blurStep w h true)^[n] s) x y =
      ⟨max (v - n * falloff) 0, max (v - n * falloff) 0,
       max (v - n * falloff) 0, 1⟩ := by
  induction n generalizing v s with
  | zero =>
      simp only [Function.iterate_zero, id_eq, Nat.cast_zero, zero_mul,
        sub_zero]
      rw [hs, max_eq_left hv]
  | succ n ih =>
      have step : ∀ x' y' : ℤ, (blurStep w h true s) x' y' =
          ⟨max (v - falloff) 0, max (v - falloff) 0, max (v - falloff) 0, 1⟩ := by
        intro x' y'
        unfold blurStep
        rw [blurKernel_uniform s w h true _ _ ⟨v, v, v, 1⟩ hs]
        simp
      have key : ((blurStep w h true)^[n] (blurStep w h true s)) x y =
          ⟨max (max (v - falloff) 0 - n * falloff) 0,
           max (max (v - falloff) 0 - n * falloff) 0,
           max (max (v - falloff) 0 - n * falloff) 0, 1⟩ :=
        ih (max (v - falloff) 0) (le_max_right _ _) (blurStep w h true s) step
      rw [Function.iterate_succ_apply, key]
      have harith : max (max (v - falloff) 0 - n * falloff) 0 =
          max (v - (n + 1 : ℕ) * falloff) 0 := by
        have hf : (0 : ℚ) ≤ falloff := by unfold falloff; norm_num
        rcases le_total (v - falloff) 0 with hle | hle
        · rw [max_eq_right hle]
          have h1 : (0 : ℚ) - (n : ℚ) * falloff ≤ 0 := by
            have : (0 : ℚ) ≤ (n : ℚ) * falloff :=
              mul_nonneg (Nat.cast_nonneg n) hf
            linarith
          have h2 : v - ((n : ℕ) + 1 : ℕ) * falloff ≤ 0 := by
            push_cast
            have : (0 : ℚ) ≤ (n : ℚ) * falloff :=
              mul_nonneg (Nat.cast_nonneg n) hf
            linarith
          rw [max_eq_right h1, max_eq_right h2]
        · rw [max_eq_left hle]
          have : v - falloff - (n : ℚ) * falloff = v - ((n : ℕ) + 1 : ℕ) * falloff := by
            push_cast; ring
          rw [this]
      rw [harith]

/-- C2 amended: with `clearFrame = true` applied repeatedly and no waveform
redraw, on a *uniform* initial surface (value `v` on every channel, alpha 1;
out-of-range neighbor reads return the same uniform value) every channel of
every pixel is non-increasing from each application to the next and reaches
exactly 0 within `⌈v / falloff⌉` applications, `falloff = 0.005`.  The
restriction to uniform surfaces is forced: on non-uniform surfaces the
neighbor blend can raise a channel (see the counterexample). -/
theorem blur_clear_uniform_fade (w h : ℕ) (v : ℚ) (hv : 0 ≤ v) (s : Surface)
    (hs : ∀ x y, s x y = ⟨v, v, v, 1⟩) :
    (∀ n (x y : ℤ),
        (((blurStep w h true)^[n + 1] s) x y).r ≤ (((blurStep w h true)^[n] s) x y).r ∧
        (((blurStep w h true)^[n + 1] s) x y).g ≤ (((blurStep w h true)^[n] s) x y).g ∧
        (((blurStep w h true)^[n + 1] s) x y).b ≤ (((blurStep w h true)^[n] s) x y).b) ∧
    (∀ x y : ℤ,
        ((blurStep w h true)^[(⌈v / falloff⌉).toNat] s) x y = ⟨0, 0, 0, 1⟩) := by
  have hf : (0 : ℚ) < falloff := by unfold falloff; norm_num
  constructor
  · intro n x y
    rw [blurStep_iterate_uniform w h v hv s hs n x y,
        blurStep_iterate_uniform w h v hv s hs (n + 1) x y]
    have hmono : max (v - ((n : ℕ) + 1 : ℕ) * falloff) 0 ≤
        max (v - (n : ℚ) * falloff) 0 := by
      apply max_le_max _ le_rfl
      push_cast
      nlinarith [hf.le]
    exact ⟨hmono, hmono, hmono⟩
  · intro x y
    rw [blurStep_iterate_uniform w h v hv s hs _ x y]
    have hceil : v / falloff ≤ ((⌈v / falloff⌉).toNat : ℚ) := by
      have h1 : (0 : ℤ) ≤ ⌈v / falloff⌉ :=
        Int.ceil_nonneg (div_nonneg hv hf.le)
      have h2 : ((⌈v / falloff⌉).toNat : ℤ) = ⌈v / falloff⌉ :=
        Int.toNat_of_nonneg h1
      calc v / falloff ≤ (⌈v / falloff⌉ : ℚ) := Int.le_ceil _
        _ = (((⌈v / falloff⌉).toNat : ℤ) : ℚ) := by rw [h2]
        _ = ((⌈v / falloff⌉).toNat : ℚ) := by push_cast; ring
    have hzero : v - ((⌈v / falloff⌉).toNat : ℚ) * falloff ≤ 0 := by
      have := (div_le_iff₀ hf).mp hceil
      linarith
    rw [max_eq_right hzero]

/-- Witness for C2 (amended) at `v = 1/100`, a 2×2 surface:
`⌈(1/100)/falloff⌉ = 2` applications reach exactly 0, and the first
application does not increase any channel. -/
theorem blur_clear_uniform_fade_witness :
    ((0 : ℚ) ≤ 1/100 ∧ (∀ x y : ℤ, uniFadeSurface x y = ⟨1/100, 1/100, 1/100, 1⟩)) ∧
    ((∀ n (x y : ℤ),
        (((blurStep 2 2 true)^[n + 1] uniFadeSurface) x y).r ≤
          (((blurStep 2 2 true)^[n] uniFadeSurface) x y).r ∧
        (((blurStep 2 2 true)^[n + 1] uniFadeSurface) x y).g ≤
          (((blurStep 2 2 true)^[n] uniFadeSurface) x y).g ∧
        (((blurStep 2 2 true)^[n + 1] uniFadeSurface) x y).b ≤
          (((blurStep 2 2 true)^[n] uniFadeSurface) x y).b) ∧
     (∀ x y : ℤ,
        ((blurStep 2 2 true)^[(⌈(1/100 : ℚ) / falloff⌉).toNat] uniFadeSurface) x y =
          ⟨0, 0, 0, 1⟩)) :=
  ⟨⟨by norm_num, fun _ _ => rfl⟩,
   blur_clear_uniform_fade 2 2 (1/100) (by norm_num) uniFadeSurface
     (fun _ _ => rfl)⟩

/-! ## C7 -/

/-- C7: refuted as stated.  "All texels equal" does not suffice at edge
pixels: the kernel there loads out-of-range texels, whose value WGSL leaves
indeterminate.  On a 2×2 surface whose four in-bounds texels all hold the
same mid-gray color but whose out-of-range reads return opaque black (a
conformant realisation), one `clearFrame = false` application changes the
edge pixel `(0,0)` — the blend with the black out-of-bounds neighbor
`(-1,0)` darkens it — so the pass is not the identity on every pixel. -/
theorem blur_uniform_identity_counterexample :
    (uniformInteriorSurface 0 0 = uniformInteriorSurface 1 0 ∧
     uniformInteriorSurface 0 0 = uniformInteriorSurface 0 1 ∧
     uniformInteriorSurface 0 0 = uniformInteriorSurface 1 1) ∧
    blurPass uniformInteriorSurface uniformInteriorSurface 2 2 false 0 0 ≠
      uniformInteriorSurface 0 0 := by
  refine ⟨⟨rfl, rfl, rfl⟩, ?_⟩
  norm_num [blurPass, blurKernel, uniformInteriorSurface, blendNeighbor,
    curColorMix, tmpColorMix]

/-- C7 amended: with `clearFrame = false` and a uniform-color input surface
whose out-of-range neighbor reads also return the uniform color (WGSL
leaves them indeterminate; clamp-to-edge realises this), with alpha 1 (the
kernel always writes alpha 1) and non-negative channels, one application of
the decay/blur pass writes back exactly the input value at every in-bounds
pixel, including edge pixels: the repeated 50/50 blend of identical
neighbors is a no-op. -/
theorem blur_uniform_identity (tex old : Surface) (w h : ℕ) (c : Color)
    (hs : ∀ x y, tex x y = c) (ha : c.a = 1)
    (hr : 0 ≤ c.r) (hg : 0 ≤ c.g) (hb : 0 ≤ c.b) (x y : ℤ)
    (hxy : 0 ≤ x ∧ x < (w : ℤ) ∧ 0 ≤ y ∧ y < (h : ℤ)) :
    blurPass tex old w h false x y = tex x y := by
  unfold blurPass
  rw [if_pos hxy, blurKernel_uniform tex w h false _ _ c hs]
  simp only [Bool.false_eq_true, if_false]
  rw [hs x y]
  cases c
  simp only at ha hr hg hb ⊢
  rw [max_eq_left hr, max_eq_left hg, max_eq_left hb, ha]

/-- Witness for C7 on a concrete uniform gray surface at the edge pixel
`(0,0)` of a 2×2 surface. -/
theorem blur_uniform_identity_witness :
    ((∀ x y : ℤ, uniGraySurface x y = ⟨1/2, 1/4, 3/4, 1⟩) ∧
      (0 : ℚ) ≤ 1/2 ∧ (0 : ℚ) ≤ 1/4 ∧ (0 : ℚ) ≤ 3/4 ∧
      ((0 : ℤ) ≤ 0 ∧ (0 : ℤ) < (2 : ℕ) ∧ (0 : ℤ) ≤ 0 ∧ (0 : ℤ) < (2 : ℕ))) ∧
    blurPass uniGraySurface brightCornerSurface 2 2 false 0 0 =
      uniGraySurface 0 0 :=
  ⟨⟨fun _ _ => rfl, by norm_num, by norm_num, by norm_num, by norm_num⟩,
   blur_uniform_identity uniGraySurface brightCornerSurface 2 2
     ⟨1/2, 1/4, 3/4, 1⟩ (fun _ _ => rfl) rfl (by norm_num) (by norm_num)
     (by norm_num) 0 0 (by norm_num)⟩

/-! ## C4 -/

/-- C4: refuted as stated.  For a flat sample buffer (every sample 128) with
`sliceWidth = 2` and `lineWidth = 1`, the perpendicular offset is `(0, 1)`,
not zero, and vertex 0 of quad 0 sits at `y = midY + 1`, not on `midY`: the
quads are rectangles of height `2·lineWidth`, not zero-height.  (`Rat.sqrt`
instantiates the shader's `sqrt`; the argument is the perfect square 4.) -/
theorem waveform_flat_perp_counterexample :
    waveformPerp Rat.sqrt flatAudio flatWaveUniforms 0 ≠ (0, 0) ∧
    (waveformQuadVertexXY Rat.sqrt flatAudio flatWaveUniforms 0 0).2 ≠
      flatWaveUniforms.midY := by
  have hp : waveformPerp Rat.sqrt flatAudio
      ⟨100, 100, 50, 1, 4, 2, 1⟩ 0 = (0, 1) := by
    norm_num [waveformPerp, flatAudio, flatWaveUniforms]
  constructor
  · intro hcontra
    rw [show flatWaveUniforms = ⟨100, 100, 50, 1, 4, 2, 1⟩ from rfl, hp]
      at hcontra
    exact absurd (congrArg Prod.snd hcontra) (by norm_num)
  · norm_num [waveformQuadVertexXY, flatAudio, flatWaveUniforms, hp]

/-- C4 amended: for a flat (constant-value `c`) sample buffer, every segment
is horizontal — both endpoints lie on `y = midY + (c - 128)·heightChunks`
(which is `midY` exactly when `c = 128`).  When `sliceWidth > 0` the
perpendicular offset is exactly `(0, lineWidth)` (purely vertical, not
zero), so each quad is a rectangle of height `2·lineWidth` centered on that
line.  When `sliceWidth = 0` the segment is zero-length, the `len > 0`
guard makes the perpendicular exactly zero, and no division by zero (hence
no NaN) occurs. -/
theorem waveform_flat_buffer_geometry (sqrtFn : ℚ → ℚ) (audioData : ℕ → ℚ)
    (u : WaveUniforms) (c : ℚ) (i : ℕ) (hflat : ∀ j, audioData j = c) :
    (sqrtFn (u.sliceWidth * u.sliceWidth) = u.sliceWidth → 0 < u.sliceWidth →
      waveformPerp sqrtFn audioData u i = (0, u.lineWidth) ∧
      (∀ j, j < 6 →
        (waveformQuadVertexXY sqrtFn audioData u i j).2 =
            (u.midY + (c - 128) * u.heightChunks) + u.lineWidth ∨
        (waveformQuadVertexXY sqrtFn audioData u i j).2 =
            (u.midY + (c - 128) * u.heightChunks) - u.lineWidth)) ∧
    (u.sliceWidth = 0 → sqrtFn 0 = 0 →
      waveformPerp sqrtFn audioData u i = (0, 0)) := by
  have harg : ((((i : ℚ) + 1) * u.sliceWidth - (i : ℚ) * u.sliceWidth) *
        (((i : ℚ) + 1) * u.sliceWidth - (i : ℚ) * u.sliceWidth) +
      ((u.midY + (audioData (i + 1) - 128) * u.heightChunks) -
          (u.midY + (audioData i - 128) * u.heightChunks)) *
        ((u.midY + (audioData (i + 1) - 128) * u.heightChunks) -
          (u.midY + (audioData i - 128) * u.heightChunks))) =
      u.sliceWidth * u.sliceWidth := by
    rw [hflat i, hflat (i + 1)]; ring
  constructor
  · intro hsq hpos
    have hperp : waveformPerp sqrtFn audioData u i = (0, u.lineWidth) := by
      unfold waveformPerp
      simp only []
      rw [harg, hsq, if_pos hpos]
      rw [hflat i, hflat (i + 1)]
      have hdx : ((i : ℚ) + 1) * u.sliceWidth - (i : ℚ) * u.sliceWidth =
          u.sliceWidth := by ring
      have hdy : (u.midY + (c - 128) * u.heightChunks) -
          (u.midY + (c - 128) * u.heightChunks) = 0 := by ring
      rw [hdx, hdy]
      rw [neg_zero, zero_div, zero_mul, div_self (ne_of_gt hpos), one_mul]
    refine ⟨hperp, ?_⟩
    intro j hj
    interval_cases j <;>
      simp only [waveformQuadVertexXY, hperp, hflat i, hflat (i + 1)] <;>
      norm_num
  · intro hzero h0
    unfold waveformPerp
    simp only []
    rw [harg, hzero]
    norm_num [h0]

/-- Witness for C4 (amended): flat buffer at 128, `sliceWidth = 2`,
`lineWidth = 1`, `Rat.sqrt` as the shader's square root. -/
theorem waveform_flat_buffer_geometry_witness :
    ((∀ j, flatAudio j = 128) ∧
      Rat.sqrt (flatWaveUniforms.sliceWidth * flatWaveUniforms.sliceWidth) =
        flatWaveUniforms.sliceWidth ∧
      (0 : ℚ) < flatWaveUniforms.sliceWidth) ∧
    (waveformPerp Rat.sqrt flatAudio flatWaveUniforms 0 =
        (0, flatWaveUniforms.lineWidth) ∧
      (∀ j, j < 6 →
        (waveformQuadVertexXY Rat.sqrt flatAudio flatWaveUniforms 0 j).2 =
            (flatWaveUniforms.midY +
              ((128 : ℚ) - 128) * flatWaveUniforms.heightChunks) +
              flatWaveUniforms.lineWidth ∨
        (waveformQuadVertexXY Rat.sqrt flatAudio flatWaveUniforms 0 j).2 =
            (flatWaveUniforms.midY +
              ((128 : ℚ) - 128) * flatWaveUniforms.heightChunks) -
              flatWaveUniforms.lineWidth)) :=
  ⟨⟨fun _ => rfl, by norm_num [flatWaveUniforms],
      by norm_num [flatWaveUniforms]⟩,
   (waveform_flat_buffer_geometry Rat.sqrt flatAudio flatWaveUniforms 128 0
        (fun _ => rfl)).1
      (by norm_num [flatWaveUniforms])
      (by norm_num [flatWaveUniforms])⟩

/-! ## C9 -/

/-- C9: confirmed.  For a sample buffer of length `N ≥ 2`, each waveform
draw — the shadow draw and the main stroke draw — issues exactly
`6·(N−1)` vertices; the vertex indices partition into `N−1` quads of
exactly 6 vertices each (quad `q` gets indices `6q … 6q+5`), and no vertex
of either draw hits the shader's degenerate guard. -/
theorem waveform_draw_quads (N : ℕ) (hN : 2 ≤ N) :
    renderFrameWaveformDraws N = [6 * (N - 1), 6 * (N - 1)] ∧
    (∀ q, q < N - 1 →
      ((Finset.range (waveformDrawVertexCount N)).filter
          (fun vi => quadIndex vi = q)).card = 6) ∧
    (∀ vi, vi < waveformDrawVertexCount N → ¬ vertexIsDegenerate N vi) := by
  refine ⟨?_, ?_, ?_⟩
  · simp [renderFrameWaveformDraws, waveformDrawVertexCount, Nat.mul_comm]
  · intro q hq
    have hset : (Finset.range (waveformDrawVertexCount N)).filter
        (fun vi => quadIndex vi = q) = Finset.Ico (6 * q) (6 * q + 6) := by
      ext vi
      simp only [Finset.mem_filter, Finset.mem_range, Finset.mem_Ico,
        quadIndex, waveformDrawVertexCount]
      omega
    rw [hset, Nat.card_Ico]
    omega
  · intro vi hvi
    simp only [waveformDrawVertexCount] at hvi
    simp only [vertexIsDegenerate, quadIndex, not_le]
    omega

/-- Witness for C9 at `N = 3`: two draws of 12 vertices, quads 0 and 1 of 6
vertices each, no degenerate vertex. -/
theorem waveform_draw_quads_witness :
    (2 ≤ 3) ∧
    (renderFrameWaveformDraws 3 = [6 * (3 - 1), 6 * (3 - 1)] ∧
     (∀ q, q < 3 - 1 →
       ((Finset.range (waveformDrawVertexCount 3)).filter
           (fun vi => quadIndex vi = q)).card = 6) ∧
     (∀ vi, vi < waveformDrawVertexCount 3 → ¬ vertexIsDegenerate 3 vi)) :=
  ⟨by norm_num, waveform_draw_quads 3 (by norm_num)⟩

end JSMusicVis
